import Mathlib

/-!
Shallow embedding of `src/digitake/preprocess/__init__.py`
(repository `digitake/research_thyroid`).

A Python dict from class label to a list of file paths is modelled as an
association list `List (String × List String)`; Python dicts have unique
keys, so claims that depend on key uniqueness take a `Nodup` hypothesis
on the key list.  Exceptions (`IndexError`, `assert`, `raise Exception`)
are modelled with `Option`/`Except`: `none`/`.error` means the Python
call raises.
-/

/-- A mapping from class label to an ordered sequence of file paths
(Python: `Dict[str, List[str]]`, insertion-ordered). -/
abbrev ClassPathMap := List (String × List String)

/-- Comparison used by Python's `sorted(self.dataset.items())`: tuples are
compared by their first component (the class label); for unique keys the
second component never decides the order. -/
def pairLabelLE (a b : String × List String) : Prop := a.1 ≤ b.1

instance : DecidableRel pairLabelLE := fun a b =>
  decidable_of_iff (a.1.toList ≤ b.1.toList) String.le_iff_toList_le.symm

instance : IsTotal (String × List String) pairLabelLE := ⟨fun a b => le_total a.1 b.1⟩

instance : IsTrans (String × List String) pairLabelLE := ⟨fun _ _ _ h h2 => le_trans h h2⟩

/-- State of a `ThyroidDataset` after `set_dataset`: the dict itself plus the
cached partition table. -/
structure DatasetState where
  dataset : ClassPathMap
  partition : List (String × Nat)
deriving Repr

/-- `ThyroidDataset.set_dataset`:
`self.dataset = dataset; self.partition = [(k, len(v)) for k, v in sorted(self.dataset.items())]`. -/
def set_dataset (dataset : ClassPathMap) : DatasetState :=
  { dataset := dataset
    partition := (dataset.insertionSort pairLabelLE).map (fun kv => (kv.1, kv.2.length)) }

/-- `ThyroidDataset.__len__`: `len(sum(self.dataset.values(), []))` —
length of the concatenation of all the path lists. -/
def datasetLen (s : DatasetState) : Nat :=
  ((s.dataset.map Prod.snd).flatten).length

/-- The loop body of `ThyroidDataset.__get_partitioned_index`: walk the
partition table, and either land in the current class or subtract its count
and move on; `none` models the trailing `raise IndexError`. -/
def getPartitionedIndexAux : List (String × Nat) → Nat → Nat → Option (String × Nat × Nat)
  | [], _, _ => none
  | (k, v) :: rest, class_num, index =>
    if v ≤ index then getPartitionedIndexAux rest (class_num + 1) (index - v)
    else some (k, class_num, index)

/-- `ThyroidDataset.__get_partitioned_index`: raises (`none`) on a negative
index, otherwise walks the partition table. -/
def get_partitioned_index (s : DatasetState) (index : Int) : Option (String × Nat × Nat) :=
  if index < 0 then none
  else getPartitionedIndexAux s.partition 0 index.toNat

/-- `ThyroidDataset.get_class_label`: asserts `class_index < len(self.partition)`
(`none` models the assertion failure) and returns `self.partition[class_index][0]`. -/
def get_class_label (s : DatasetState) (class_index : Nat) : Option String :=
  if h : class_index < s.partition.length then some (s.partition.get ⟨class_index, h⟩).1
  else none

/-- The error raised by the `assert val_size < ds_size` in
`build_train_validation_set`; its message names the offending class and its
size (`f"The size of dataset '{key}'({ds_size}) is smaller than ..."`). -/
structure SplitError where
  label : String
  size : Nat
deriving Repr, DecidableEq

/-- The split loop of `build_train_validation_set`, acting on the datasets
dictionary it builds (`build_dataset` itself is filesystem globbing, outside
the embedding).  For each class in order it asserts `val_size < ds_size`
(else `.error` with that class and size), takes `datasets[key][val_size:]`
as training data and `datasets[key][:val_size]` as validation data, and
returns the pair `(training_set, validation_set)`. -/
def build_train_validation_set : ClassPathMap → Nat → Except SplitError (ClassPathMap × ClassPathMap)
  | [], _ => .ok ([], [])
  | (key, paths) :: rest, val_size =>
    if val_size < paths.length then
      match build_train_validation_set rest val_size with
      | .ok (training_set, validation_set) =>
        .ok ((key, paths.drop val_size) :: training_set,
             (key, paths.take val_size) :: validation_set)
      | .error e => .error e
    else .error { label := key, size := paths.length }

/-- One stage of a torchvision transform pipeline, as configured by
`get_transform`.  The Python float parameters (`0.126`, `0.2`, `0.5`, the
ImageNet mean/std) are stored exactly as integers scaled by 1000
(`0.126` ↦ `126`). -/
inductive TransformStage where
  | resize (w h : Nat)
  | randomRotation (degrees : Nat) (interpolation : String) (expand : Bool)
  | centerCrop (w h : Nat)
  | randomHorizontalFlip (p1000 : Nat)
  | randomPerspective (distortionScale1000 : Nat)
  | randomApplyColorJitter (brightness1000 contrast1000 p1000 : Nat)
  | toTensor
  | normalize (mean1000 std1000 : List Nat)
deriving Repr, DecidableEq

/-- `imagenet_mean = [0.485, 0.456, 0.406]`, scaled by 1000. -/
def imagenet_mean : List Nat := [485, 456, 406]

/-- `imagenet_std = [0.229, 0.224, 0.225]`, scaled by 1000. -/
def imagenet_std : List Nat := [229, 224, 225]

/-- `get_transform(target_size, phase)`: builds the per-phase pipeline as the
ordered list of its stages.  The enlarge step is
`Resize((int(target_size[0] * 1.1), int(target_size[1] * 1.1)))`; for natural
`w` the Python value `int(w * 1.1)` equals `w * 11 / 10` in integer division.
An unknown phase raises `Exception("Unknown pharse specified")`, modelled as
`.error` with that message. -/
def get_transform (target_size : Nat × Nat) (phase : String) :
    Except String (List TransformStage) :=
  let enlarge := TransformStage.resize (target_size.1 * 11 / 10) (target_size.2 * 11 / 10)
  let imagenet_normalize := TransformStage.normalize imagenet_mean imagenet_std
  if phase = "train" then
    .ok [enlarge,
      .randomRotation 45 "bilinear" true,
      .centerCrop target_size.1 target_size.2,
      .randomHorizontalFlip 500,
      .randomPerspective 200,
      .randomApplyColorJitter 126 200 500,
      .toTensor,
      imagenet_normalize]
  else if phase = "val" then
    .ok [enlarge, .centerCrop target_size.1 target_size.2, .toTensor, imagenet_normalize]
  else if phase = "test" then
    .ok [enlarge, .centerCrop target_size.1 target_size.2, .toTensor, imagenet_normalize]
  else
    .error "Unknown pharse specified"

/-- Discriminator for the `CenterCrop` stage. -/
def isCenterCrop : TransformStage → Bool
  | .centerCrop _ _ => true
  | _ => false

/-- The stages strictly after the first (enlarge) stage and strictly before
the pipeline's center-crop stage. -/
def stagesAfterEnlargeBeforeCrop (stages : List TransformStage) : List TransformStage :=
  (stages.drop 1).takeWhile (fun s => !(isCenterCrop s))

/-- The path lookup performed by `ThyroidDataset.__getitem__`:
`label, class_index, index = self.__get_partitioned_index(index)` followed by
`path = self.dataset[label][index]`. -/
def getitem_path (s : DatasetState) (index : Int) : Option String :=
  match get_partitioned_index s index with
  | none => none
  | some (label, _, off) =>
    match s.dataset.lookup label with
    | none => none
    | some paths => paths[off]?

/-- The spec's worked scenario: classes `{'benign': [b1, b2], 'malignant': [m1]}`. -/
def benignMalignant : ClassPathMap := [("benign", ["b1", "b2"]), ("malignant", ["m1"])]

/-- The spec's split example: `{'a': [p1, p2, p3, p4, p5]}`. -/
def fivePaths : ClassPathMap := [("a", ["p1", "p2", "p3", "p4", "p5"])]

/-- The walk raises `IndexError` exactly when the remaining index is at least
the total of the remaining partition counts. -/
theorem getPartitionedIndexAux_eq_none_iff (parts : List (String × Nat)) (c idx : Nat) :
    getPartitionedIndexAux parts c idx = none ↔ (parts.map Prod.snd).sum ≤ idx := by
  induction parts generalizing c idx with
  | nil => simp [getPartitionedIndexAux]
  | cons kv rest ih =>
    obtain ⟨k, v⟩ := kv
    simp only [getPartitionedIndexAux, List.map_cons, List.sum_cons]
    by_cases hv : v ≤ idx
    · rw [if_pos hv, ih]
      omega
    · rw [if_neg hv]
      simp only [reduceCtorEq, false_iff]
      omega

/-- What a successful walk returns: the resolved class sits `j` entries into
the remaining table, `class_num` is the accumulator plus `j`, the offset is
within that class's count, and the consumed index is the sum of the skipped
counts plus the offset. -/
theorem getPartitionedIndexAux_eq_some (parts : List (String × Nat)) (c idx : Nat)
    (k : String) (cn off : Nat)
    (h : getPartitionedIndexAux parts c idx = some (k, cn, off)) :
    ∃ j, ∃ hj : j < parts.length, cn = c + j ∧
      (parts.get ⟨j, hj⟩).1 = k ∧ off < (parts.get ⟨j, hj⟩).2 ∧
      idx = ((parts.take j).map Prod.snd).sum + off := by
  induction parts generalizing c idx with
  | nil => simp [getPartitionedIndexAux] at h
  | cons kv rest ih =>
    obtain ⟨k0, v0⟩ := kv
    simp only [getPartitionedIndexAux] at h
    by_cases hv : v0 ≤ idx
    · rw [if_pos hv] at h
      obtain ⟨j, hj, hcn, hk, hoff, hidx⟩ := ih (c + 1) (idx - v0) h
      refine ⟨j + 1, by simpa using Nat.succ_lt_succ hj, by omega, ?_, ?_, ?_⟩
      · simpa using hk
      · simpa using hoff
      · simp only [List.take_succ_cons, List.map_cons, List.sum_cons]
        omega
    · rw [if_neg hv] at h
      simp only [Option.some.injEq, Prod.mk.injEq] at h
      obtain ⟨hk, hcn, hoff⟩ := h
      refine ⟨0, by simp, by omega, ?_, ?_, ?_⟩
      · simpa using hk
      · simpa using by omega
      · simpa using by omega

/-- The partition table built by `set_dataset` is a permutation of the
per-class `(label, count)` projection of the dict. -/
theorem partition_perm (ds : ClassPathMap) :
    ((set_dataset ds).partition).Perm (ds.map (fun kv => (kv.1, kv.2.length))) :=
  (List.perm_insertionSort pairLabelLE ds).map _

/-- The counts in the partition table sum to the total path count. -/
theorem sum_partition_counts (ds : ClassPathMap) :
    ((set_dataset ds).partition.map Prod.snd).sum = (ds.map (fun kv => kv.2.length)).sum := by
  have h := ((partition_perm ds).map Prod.snd).sum_eq
  rw [List.map_map] at h
  exact h

/-- `__len__` is the sum of the per-class path-sequence lengths. -/
theorem datasetLen_eq_sum (ds : ClassPathMap) :
    datasetLen (set_dataset ds) = (ds.map (fun kv => kv.2.length)).sum := by
  show ((ds.map Prod.snd).flatten).length = _
  rw [List.length_flatten, List.map_map]
  rfl

/-- Unfolding of a successful `__get_partitioned_index` call: the index was
non-negative, `class_num` is an in-range position in the partition table whose
entry carries the returned label, the offset is below that entry's count, and
the index equals the sum of the counts before `class_num` plus the offset. -/
theorem get_partitioned_index_eq_some (s : DatasetState) (i : Int) (k : String) (cn off : Nat)
    (h : get_partitioned_index s i = some (k, cn, off)) :
    0 ≤ i ∧ ∃ hcn : cn < s.partition.length,
      (s.partition.get ⟨cn, hcn⟩).1 = k ∧ off < (s.partition.get ⟨cn, hcn⟩).2 ∧
      i.toNat = ((s.partition.take cn).map Prod.snd).sum + off := by
  rw [get_partitioned_index] at h
  split at h
  · simp at h
  · next hneg =>
    obtain ⟨j, hj, hcn, hk, hoff, hidx⟩ := getPartitionedIndexAux_eq_some _ 0 _ _ _ _ h
    have hcj : cn = j := by omega
    subst hcj
    exact ⟨by omega, hj, hk, hoff, hidx⟩

/-- **C1**: `__get_partitioned_index` walks the partition table in
sorted-label order and the returned `class_number` is the 0-based position of
the resolved label in that table; on the state
`{'benign': [b1, b2], 'malignant': [m1]}` the table is
`[('benign', 2), ('malignant', 1)]`, `resolve(0) = ('benign', 0, 0)`,
`resolve(1) = ('benign', 0, 1)`, `resolve(2) = ('malignant', 1, 0)` and
`resolve(3)` raises `IndexError`. -/
theorem resolve_walks_sorted_partition :
    (∀ (ds : ClassPathMap) (i : Int) (k : String) (cn off : Nat),
        get_partitioned_index (set_dataset ds) i = some (k, cn, off) →
        ∃ hcn : cn < (set_dataset ds).partition.length,
          ((set_dataset ds).partition.get ⟨cn, hcn⟩).1 = k) ∧
    (set_dataset benignMalignant).partition = [("benign", 2), ("malignant", 1)] ∧
    get_partitioned_index (set_dataset benignMalignant) 0 = some ("benign", 0, 0) ∧
    get_partitioned_index (set_dataset benignMalignant) 1 = some ("benign", 0, 1) ∧
    get_partitioned_index (set_dataset benignMalignant) 2 = some ("malignant", 1, 0) ∧
    get_partitioned_index (set_dataset benignMalignant) 3 = none := by
  refine ⟨?_, by decide, by decide, by decide, by decide, by decide⟩
  intro ds i k cn off h
  obtain ⟨-, hcn, hk, -, -⟩ := get_partitioned_index_eq_some _ _ _ _ _ h
  exact ⟨hcn, hk⟩

/-- Witness for `resolve_walks_sorted_partition` at the scenario state. -/
theorem resolve_walks_sorted_partition_witness :
    ∃ hcn : 0 < (set_dataset benignMalignant).partition.length,
      ((set_dataset benignMalignant).partition.get ⟨0, hcn⟩).1 = "benign" :=
  resolve_walks_sorted_partition.1 benignMalignant 0 "benign" 0 0 (by decide)

/-- **C2**: for in-range indices `__get_partitioned_index` succeeds, and it is
injective on in-range indices (determinism is immediate: the embedding is a
pure function of the state). -/
theorem resolve_inrange_isSome_injective (ds : ClassPathMap) (i j : Int)
    (hi0 : 0 ≤ i) (hi : i < (datasetLen (set_dataset ds) : Int))
    (hj0 : 0 ≤ j) (_hjlen : j < (datasetLen (set_dataset ds) : Int)) :
    (get_partitioned_index (set_dataset ds) i).isSome ∧
      (get_partitioned_index (set_dataset ds) i = get_partitioned_index (set_dataset ds) j →
        i = j) := by
  have hs := sum_partition_counts ds
  have hl := datasetLen_eq_sum ds
  have hnone : ∀ x : Int, 0 ≤ x → x < (datasetLen (set_dataset ds) : Int) →
      get_partitioned_index (set_dataset ds) x ≠ none := by
    intro x hx0 hx hcon
    rw [get_partitioned_index, if_neg (by omega), getPartitionedIndexAux_eq_none_iff] at hcon
    omega
  constructor
  · exact Option.ne_none_iff_isSome.mp (hnone i hi0 hi)
  · intro heq
    obtain ⟨⟨k, cn, off⟩, hsome⟩ := Option.ne_none_iff_exists'.mp (hnone i hi0 hi)
    have hsomej : get_partitioned_index (set_dataset ds) j = some (k, cn, off) :=
      heq.symm.trans hsome
    obtain ⟨-, hcni, -, -, hidxi⟩ := get_partitioned_index_eq_some _ _ _ _ _ hsome
    obtain ⟨-, hcnj, -, -, hidxj⟩ := get_partitioned_index_eq_some _ _ _ _ _ hsomej
    omega

/-- Witness for `resolve_inrange_isSome_injective` at the scenario state with
indices 0 and 2. -/
theorem resolve_inrange_isSome_injective_witness :
    ((0 : Int) ≤ 0 ∧ (0 : Int) < (datasetLen (set_dataset benignMalignant) : Int) ∧
      (0 : Int) ≤ 2 ∧ (2 : Int) < (datasetLen (set_dataset benignMalignant) : Int)) ∧
    ((get_partitioned_index (set_dataset benignMalignant) 0).isSome ∧
      (get_partitioned_index (set_dataset benignMalignant) 0 =
        get_partitioned_index (set_dataset benignMalignant) 2 → (0 : Int) = 2)) :=
  ⟨⟨by decide, by decide, by decide, by decide⟩,
    resolve_inrange_isSome_injective benignMalignant 0 2
      (by decide) (by decide) (by decide) (by decide)⟩

/-- **C3**: `__get_partitioned_index` raises `IndexError` exactly when the
linear index is out of range: for `i < 0` or `i ≥ len(self)`, and never for
`0 ≤ i < len(self)`. -/
theorem resolve_none_iff_out_of_range (ds : ClassPathMap) (i : Int) :
    get_partitioned_index (set_dataset ds) i = none ↔
      i < 0 ∨ (datasetLen (set_dataset ds) : Int) ≤ i := by
  have hs := sum_partition_counts ds
  have hl := datasetLen_eq_sum ds
  rw [get_partitioned_index]
  split
  · next hneg => exact iff_of_true rfl (Or.inl hneg)
  · next hpos =>
    rw [getPartitionedIndexAux_eq_none_iff]
    omega

/-- **C4**: round-trip — if `resolve(i)` returns `(label, class_number, off)`
then `get_class_label(class_number)` returns that same label. -/
theorem resolve_get_class_label_roundtrip (ds : ClassPathMap) (i : Int)
    (k : String) (cn off : Nat)
    (h : get_partitioned_index (set_dataset ds) i = some (k, cn, off)) :
    get_class_label (set_dataset ds) cn = some k := by
  obtain ⟨-, hcn, hk, -, -⟩ := get_partitioned_index_eq_some _ _ _ _ _ h
  unfold get_class_label
  rw [dif_pos hcn, hk]

/-- Witness for `resolve_get_class_label_roundtrip` at the scenario state. -/
theorem resolve_get_class_label_roundtrip_witness :
    get_partitioned_index (set_dataset benignMalignant) 2 = some ("malignant", 1, 0) ∧
    get_class_label (set_dataset benignMalignant) 1 = some "malignant" :=
  ⟨by decide, resolve_get_class_label_roundtrip benignMalignant 2 "malignant" 1 0 (by decide)⟩

/-- **C5**: the split builder raises `InvalidArgument` (the `assert`) whenever
some class's path count is at most `val_size`, and the error carries the
offending class's label and size. -/
theorem split_error_of_small_class (datasets : ClassPathMap) (val_size : Nat)
    (h : ∃ kv ∈ datasets, kv.2.length ≤ val_size) :
    ∃ e : SplitError, build_train_validation_set datasets val_size = .error e ∧
      ∃ paths, (e.label, paths) ∈ datasets ∧ paths.length = e.size ∧ e.size ≤ val_size := by
  induction datasets with
  | nil => simp at h
  | cons kv rest ih =>
    obtain ⟨k0, paths0⟩ := kv
    rw [build_train_validation_set]
    by_cases hv : val_size < paths0.length
    · rw [if_pos hv]
      have hrest : ∃ kv ∈ rest, kv.2.length ≤ val_size := by
        obtain ⟨kv2, hkv2, hlen2⟩ := h
        rcases List.mem_cons.mp hkv2 with heq | hmem2
        · subst heq
          simp only at hlen2
          omega
        · exact ⟨kv2, hmem2, hlen2⟩
      obtain ⟨e, he, paths, hmem, hlen, hle⟩ := ih hrest
      rw [he]
      exact ⟨e, rfl, paths, List.mem_cons_of_mem _ hmem, hlen, hle⟩
    · rw [if_neg hv]
      refine ⟨⟨k0, paths0.length⟩, rfl, paths0, List.mem_cons_self _ _, rfl, ?_⟩
      show paths0.length ≤ val_size
      omega

/-- Witness for `split_error_of_small_class`:
`split({'a': [p1, p2]}, 2)` raises. -/
theorem split_error_of_small_class_witness :
    (∃ kv ∈ ([("a", ["p1", "p2"])] : ClassPathMap), kv.2.length ≤ 2) ∧
    ∃ e : SplitError, build_train_validation_set [("a", ["p1", "p2"])] 2 = .error e ∧
      ∃ paths, (e.label, paths) ∈ ([("a", ["p1", "p2"])] : ClassPathMap) ∧
        paths.length = e.size ∧ e.size ≤ 2 :=
  ⟨by decide, split_error_of_small_class [("a", ["p1", "p2"])] 2 (by decide)⟩

/-- **C6**: when every class has strictly more than `val_size` paths, the
split returns per class the first `val_size` paths as validation data and the
remainder as training data, and per class `val ++ train` is the original
sequence. -/
theorem split_ok_of_large_classes (datasets : ClassPathMap) (val_size : Nat)
    (h : ∀ kv ∈ datasets, val_size < kv.2.length) :
    build_train_validation_set datasets val_size =
      .ok (datasets.map (fun kv => (kv.1, kv.2.drop val_size)),
           datasets.map (fun kv => (kv.1, kv.2.take val_size))) ∧
    ∀ kv ∈ datasets, kv.2.take val_size ++ kv.2.drop val_size = kv.2 := by
  refine ⟨?_, fun kv _ => List.take_append_drop val_size kv.2⟩
  induction datasets with
  | nil => rfl
  | cons kv rest ih =>
    obtain ⟨k0, paths0⟩ := kv
    have hv : val_size < paths0.length := by
      have := h (k0, paths0) (List.mem_cons_self _ _)
      simpa using this
    rw [build_train_validation_set, if_pos hv,
        ih (fun kv2 hkv2 => h kv2 (List.mem_cons_of_mem _ hkv2))]
    rfl

/-- Witness for `split_ok_of_large_classes`:
`split({'a': [p1..p5]}, 2)` yields `train = {'a': [p3, p4, p5]}` and
`val = {'a': [p1, p2]}`. -/
theorem split_ok_of_large_classes_witness :
    (∀ kv ∈ fivePaths, 2 < kv.2.length) ∧
    build_train_validation_set fivePaths 2
      = .ok ([("a", ["p3", "p4", "p5"])], [("a", ["p1", "p2"])]) :=
  ⟨by decide, (split_ok_of_large_classes fivePaths 2 (by decide)).1⟩

/-- **C7**: after any `set_dataset` call, `__len__` equals the sum of the
per-class path-sequence lengths, the rebuilt partition table's counts sum to
the same total, and the table is sorted by class label ascending. -/
theorem set_dataset_length_partition_invariant (ds : ClassPathMap) :
    datasetLen (set_dataset ds) = (ds.map (fun kv => kv.2.length)).sum ∧
    ((set_dataset ds).partition.map Prod.snd).sum = (ds.map (fun kv => kv.2.length)).sum ∧
    ((set_dataset ds).partition.map Prod.fst).Sorted (· ≤ ·) := by
  refine ⟨datasetLen_eq_sum ds, sum_partition_counts ds, ?_⟩
  have hsorted := List.sorted_insertionSort pairLabelLE ds
  show List.Sorted _ (((ds.insertionSort pairLabelLE).map (fun kv => (kv.1, kv.2.length))).map Prod.fst)
  rw [List.map_map]
  exact List.Pairwise.map _ (fun a b hab => hab) hsorted

/-- **C8 counterexample**: in the train pipeline the only stage between the
enlarge step and the center-crop is the random rotation; the horizontal flip,
perspective warp and color-jitter come *after* the center-crop, so the claimed
placement of all four stages before the final center-crop is false. -/
theorem train_stage_order_counterexample :
    ∃ stages, get_transform (100, 100) "train" = .ok stages ∧
      stagesAfterEnlargeBeforeCrop stages = [.randomRotation 45 "bilinear" true] ∧
      stagesAfterEnlargeBeforeCrop stages ≠
        [.randomRotation 45 "bilinear" true,
         .randomHorizontalFlip 500,
         .randomPerspective 200,
         .randomApplyColorJitter 126 200 500] :=
  ⟨_, rfl, by decide, by decide⟩

/-- **C8 (amended)**: the train pipeline is, in order: enlarge (resize to
110 %), random rotation up to 45° with expanded output, center-crop to the
target size, horizontal flip with probability 0.5, random perspective warp
with scale 0.2, color-jitter (brightness ±12.6 %, contrast ±20 %) applied with
probability 0.5, tensor conversion and ImageNet normalization — only the
rotation sits between the enlarge step and the center-crop. -/
theorem train_transform_pipeline_order (w h : Nat) :
    get_transform (w, h) "train" =
      .ok [.resize (w * 11 / 10) (h * 11 / 10),
        .randomRotation 45 "bilinear" true,
        .centerCrop w h,
        .randomHorizontalFlip 500,
        .randomPerspective 200,
        .randomApplyColorJitter 126 200 500,
        .toTensor,
        .normalize imagenet_mean imagenet_std] := rfl

/-- **C9**: `get_transform` fails (`Exception("Unknown pharse specified")`)
exactly for phase strings outside `{train, val, test}`, and returns a pipeline
for the three supported phases. -/
theorem get_transform_phase_support (target_size : Nat × Nat) (phase : String) :
    (phase ∉ (["train", "val", "test"] : List String) →
      get_transform target_size phase = .error "Unknown pharse specified") ∧
    (phase ∈ (["train", "val", "test"] : List String) →
      ∃ stages, get_transform target_size phase = .ok stages) := by
  constructor
  · intro hnot
    have h1 : ¬ phase = "train" := fun hp => hnot (by simp [hp])
    have h2 : ¬ phase = "val" := fun hp => hnot (by simp [hp])
    have h3 : ¬ phase = "test" := fun hp => hnot (by simp [hp])
    simp [get_transform, h1, h2, h3]
  · intro hmem
    simp only [List.mem_cons, List.not_mem_nil, or_false] at hmem
    rcases hmem with hp | hp | hp <;> subst hp <;> exact ⟨_, rfl⟩

/-- Witness for `get_transform_phase_support` at phases `"foo"` and `"val"`. -/
theorem get_transform_phase_support_witness :
    ("foo" ∉ (["train", "val", "test"] : List String) ∧
      get_transform (100, 100) "foo" = .error "Unknown pharse specified") ∧
    ("val" ∈ (["train", "val", "test"] : List String) ∧
      ∃ stages, get_transform (100, 100) "val" = .ok stages) :=
  ⟨⟨by decide, (get_transform_phase_support (100, 100) "foo").1 (by decide)⟩,
   ⟨by decide, (get_transform_phase_support (100, 100) "val").2 (by decide)⟩⟩

/-- With unique keys, `dict[k]` (modelled by `List.lookup`) finds exactly the
pair present in the association list. -/
theorem lookup_eq_some_of_nodup (l : ClassPathMap) (k : String) (v : List String)
    (hnd : (l.map Prod.fst).Nodup) (hmem : (k, v) ∈ l) : l.lookup k = some v := by
  induction l with
  | nil => simp at hmem
  | cons kv rest ih =>
    obtain ⟨k0, v0⟩ := kv
    simp only [List.map_cons, List.nodup_cons] at hnd
    rcases List.mem_cons.mp hmem with heq | hmem2
    · simp only [Prod.mk.injEq] at heq
      obtain ⟨hk, hv⟩ := heq
      subst hk
      subst hv
      simp [List.lookup]
    · have hk : k ≠ k0 := by
        intro hkk
        subst hkk
        exact hnd.1 (List.mem_map_of_mem Prod.fst hmem2)
      rw [List.lookup, beq_false_of_ne hk]
      exact ih hnd.2 hmem2

/-- **C10**: implicit safety of index resolution — a successful resolution
returns a label that is a key of the dict, that class's path list is
non-empty, the offset is within it, and the `self.dataset[label][index]`
lookup in `__getitem__` therefore succeeds. -/
theorem resolve_safe_for_getitem (ds : ClassPathMap)
    (hnd : (ds.map Prod.fst).Nodup) (i : Int) (k : String) (cn off : Nat)
    (h : get_partitioned_index (set_dataset ds) i = some (k, cn, off)) :
    ∃ paths : List String, (k, paths) ∈ ds ∧ paths ≠ [] ∧ off < paths.length ∧
      (set_dataset ds).dataset.lookup k = some paths ∧
      (getitem_path (set_dataset ds) i).isSome := by
  obtain ⟨-, hcn, hk, hoff, -⟩ := get_partitioned_index_eq_some _ _ _ _ _ h
  have hcn2 : cn < (ds.insertionSort pairLabelLE).length := by
    have : (set_dataset ds).partition.length = (ds.insertionSort pairLabelLE).length := by
      simp [set_dataset]
    omega
  rcases hp : (ds.insertionSort pairLabelLE).get ⟨cn, hcn2⟩ with ⟨k2, paths⟩
  have hp2 : (ds.insertionSort pairLabelLE)[cn] = (k2, paths) := by
    simpa using hp
  have hget : (set_dataset ds).partition.get ⟨cn, hcn⟩ = (k2, paths.length) := by
    simp only [set_dataset, List.get_eq_getElem, List.getElem_map, hp2]
  rw [hget] at hk hoff
  simp only at hk hoff
  subst hk
  have hmem : (k2, paths) ∈ ds :=
    (List.perm_insertionSort pairLabelLE ds).subset
      (hp ▸ List.get_mem (ds.insertionSort pairLabelLE) cn hcn2)
  have hlookup : ds.lookup k2 = some paths := lookup_eq_some_of_nodup ds k2 paths hnd hmem
  refine ⟨paths, hmem, List.ne_nil_of_length_pos (by omega), hoff, hlookup, ?_⟩
  simp only [getitem_path, h]
  rw [show (set_dataset ds).dataset.lookup k2 = some paths from hlookup]
  simp [List.getElem?_eq_getElem hoff]

/-- Witness for `resolve_safe_for_getitem` at the scenario state, index 1. -/
theorem resolve_safe_for_getitem_witness :
    ((benignMalignant.map Prod.fst).Nodup ∧
      get_partitioned_index (set_dataset benignMalignant) 1 = some ("benign", 0, 1)) ∧
    ∃ paths : List String, ("benign", paths) ∈ benignMalignant ∧ paths ≠ [] ∧
      1 < paths.length ∧
      (set_dataset benignMalignant).dataset.lookup "benign" = some paths ∧
      (getitem_path (set_dataset benignMalignant) 1).isSome :=
  ⟨⟨by decide, by decide⟩,
    resolve_safe_for_getitem benignMalignant (by decide) 1 "benign" 0 1 (by decide)⟩
